import Mathlib

/-!
# Verification of the ANBIMA curve / Treasury-spread core

Shallow embedding of the curve-construction and bond-vs-curve spread logic of
the `indicadores-macro-br` repository (files `curvas_anbima.py`,
`analise_tesouro_vs_curva.py`, `tesouro_direto.py`).

Modelling conventions:
* pandas float cells are modelled by `PFloat`: either a rational value or `nan`
  (the value `pd.to_numeric(errors="coerce")` produces for missing/unparseable
  cells).  Python `None` is modelled by `Option`.
* calendar dates are modelled as integer day numbers (days since the Unix
  epoch, the same ordering and day arithmetic as `datetime.date`); the civil
  calendar conversions needed for `date(hoje.year, 1, 1)` are implemented
  below.
* a CSV file on disk is `Option (List row)`: `none` means the file does not
  exist (`FileNotFoundError` on read).
* code that raises a Python exception is modelled with `Except String`.
-/

/-- A pandas float cell: a real (rational) value or NaN. -/
inductive PFloat where
  | nan : PFloat
  | val : ℚ → PFloat
deriving DecidableEq, Repr

namespace PFloat

/-- `pd.isna` / `pd.notnull` test on a float cell. -/
def isNan : PFloat → Bool
  | .nan => true
  | .val _ => false

/-- Python float subtraction: NaN propagates. -/
def sub : PFloat → PFloat → PFloat
  | .val a, .val b => .val (a - b)
  | _, _ => .nan

/-- Python float multiplication by a rational scalar: NaN propagates. -/
def mulQ : PFloat → ℚ → PFloat
  | .val a, q => .val (a * q)
  | .nan, _ => .nan

/-- The linear-interpolation arithmetic `y0 + (y1 - y0) * t` of
`_extrair_vertice_dia`; NaN in either endpoint propagates, as in Python
float arithmetic. -/
def interp (y0 y1 : PFloat) (t : ℚ) : PFloat :=
  match y0, y1 with
  | .val a, .val b => .val (a + (b - a) * t)
  | _, _ => .nan

/-- Extract the rational value of a non-NaN cell (0 as a dummy for NaN; only
applied after NaN rows were dropped). -/
def getQ : PFloat → ℚ
  | .val q => q
  | .nan => 0

end PFloat

/-- One row of the per-day curve slice handed to `_extrair_vertice_dia`:
a `PRAZO_DU` tenor (business days) together with the cell of the selected
rate column (`TAXA_PREF` or `TAXA_IPCA`), already coerced by
`pd.to_numeric(errors="coerce")`. -/
structure Obs where
  prazo_du : Int
  taxa : PFloat
deriving DecidableEq, Repr

/-- Insert into a list sorted by ascending `PRAZO_DU` (stable). -/
def insertObs (o : Obs) : List Obs → List Obs
  | [] => [o]
  | p :: ps => if o.prazo_du ≤ p.prazo_du then o :: p :: ps else p :: insertObs o ps

/-- `df.sort_values("PRAZO_DU")`: sort ascending by tenor.  (pandas' sort is
not stable by default, but every snapshot the callers build has pairwise
distinct tenors — the store is deduplicated by `(data_curva, PRAZO_DU)` — so
any correct sort yields the same list; we use a stable insertion sort.) -/
def sortObs : List Obs → List Obs
  | [] => []
  | o :: os => insertObs o (sortObs os)

/-- The fallback of `_extrair_vertice_dia`: sort by `|PRAZO_DU - alvo_du|`
(stably) and take the first row.  `argminDiff` returns that first row:
the earliest row achieving the minimal absolute tenor distance. -/
def argminDiff (alvo : Int) : List Obs → Option Obs
  | [] => none
  | o :: os =>
    match argminDiff alvo os with
    | none => some o
    | some m =>
      if (o.prazo_du - alvo).natAbs ≤ (m.prazo_du - alvo).natAbs then some o else some m

/-- `_extrair_vertice_dia(df_dia, anos, coluna_taxa)` from `curvas_anbima.py`.

The rows of `df_dia` already carry the selected rate column (the function is
called once with `TAXA_PREF` and once with `TAXA_IPCA`); typed rows always
have the `PRAZO_DU` column, so the `"PRAZO_DU" not in df_dia.columns` guard
of the source is subsumed by the type.  All call sites pass an integer number
of years, so `alvo_du = int(round(anos * 252)) = anos * 252` exactly.

Branches, in source order:
1. empty input → `None`;
2. zero non-NaN rates in the selected column → `None`;
3. exact tenor match → that row's rate (`float` of the cell, NaN included);
4. a strictly-below and a strictly-above neighbour exist → linear
   interpolation in business days (NaN propagates);
5. otherwise nearest-neighbour fallback: the rate of the row minimising
   `|PRAZO_DU - alvo_du|`, with a NaN rate converted to `None`
   (`float(valor) if pd.notnull(valor) else None`). -/
def extrair_vertice_dia (df_dia : List Obs) (anos : Int) : Option PFloat :=
  if df_dia.isEmpty then none
  else if (df_dia.filter (fun o => !o.taxa.isNan)).length = 0 then none
  else
    match (sortObs df_dia).find? (fun o => decide (o.prazo_du = anos * 252)) with
    | some o => some o.taxa
    | none =>
      match ((sortObs df_dia).filter (fun o => decide (o.prazo_du < anos * 252))).getLast?,
            ((sortObs df_dia).filter (fun o => decide (anos * 252 < o.prazo_du))).head? with
      | some a, some d =>
          some (PFloat.interp a.taxa d.taxa
            (((anos * 252 - a.prazo_du : Int) : ℚ) / ((d.prazo_du - a.prazo_du : Int) : ℚ)))
      | _, _ =>
          match argminDiff (anos * 252) (sortObs df_dia) with
          | some m => if m.taxa.isNan then none else some m.taxa
          | none => none

example : extrair_vertice_dia [⟨252, .val 10⟩, ⟨504, .val 12⟩] 1 = some (.val 10) := by decide
example : extrair_vertice_dia [⟨200, .val 10⟩, ⟨300, .val 12⟩] 1 = some (.val (276/25)) := by
  norm_num [extrair_vertice_dia, sortObs, insertObs, argminDiff, PFloat.interp, PFloat.isNan,
    List.filter, List.find?]
example : extrair_vertice_dia [⟨300, .val 10⟩, ⟨400, .val 12⟩] 1 = some (.val 10) := by decide
example : extrair_vertice_dia [⟨252, .nan⟩] 1 = none := by decide
example : extrair_vertice_dia [⟨252, .nan⟩, ⟨300, .val 7⟩] 1 = some .nan := by decide

/-! ## The historical curve store (`curvas_anbima.py`) -/

/-- One row of the single history file `curvas_anbima_full.csv`:
`data_curva` (effective curve date), `PRAZO_DU`, `TAXA_PREF`, `TAXA_IPCA`,
and `data_ref` (the day the download ran).  Dates are integer day numbers. -/
structure HRow where
  data_curva : Int
  prazo_du : Int
  taxa_pref : PFloat
  taxa_ipca : PFloat
  data_ref : Int
deriving DecidableEq, Repr

/-- The dedup key of `_append_historico_full`: `(data_curva, PRAZO_DU)`. -/
def chave (r : HRow) : Int × Int := (r.data_curva, r.prazo_du)

/-- `drop_duplicates(subset=["data_curva", "PRAZO_DU"], keep="last")`: a row
is kept iff no later row carries the same key; kept rows stay in order. -/
def dropDupKeepLast : List HRow → List HRow
  | [] => []
  | r :: rs =>
    if rs.any (fun s => decide (chave s = chave r)) then dropDupKeepLast rs
    else r :: dropDupKeepLast rs

/-- `_append_historico_full(df_new)` from `curvas_anbima.py`, as a function of
the current file contents (`none` = the file does not exist, giving
`FileNotFoundError` → empty old frame) and the new batch (`none` = Python
`None`).  The result is the WRITE the call performs: `none` means the call
returned without writing anything, `some rows` means it rewrote the file with
exactly `rows` (concatenation of old and new, deduplicated keep-last). -/
def append_historico_full (file : Option (List HRow)) (df_new : Option (List HRow)) :
    Option (List HRow) :=
  match df_new with
  | none => none
  | some novo =>
    if novo.isEmpty then none
    else
      let df_old := file.getD []
      some (dropDupKeepLast (df_old ++ novo))

/-- The on-disk state after a call to `_append_historico_full`: unchanged when
no write happened, otherwise the written contents. -/
def file_after_append (file : Option (List HRow)) (df_new : Option (List HRow)) :
    Option (List HRow) :=
  match append_historico_full file df_new with
  | none => file
  | some c => some c

/-- `_carregar_historico_full`: read the history file, empty frame on
`FileNotFoundError`. -/
def carregar_historico_full (file : Option (List HRow)) : List HRow :=
  file.getD []

/-- `Series.max()` of a column (`None` only for an empty column; pandas would
give NaN, which the callers guard with `pd.isna`). -/
def maxList : List Int → Option Int
  | [] => none
  | x :: xs => some (xs.foldl max x)

/-! ## Today's curve (`montar_curva_anbima_hoje`) -/

/-- The fixed maturity ladder of `montar_curva_anbima_hoje`. -/
def vertices_padrao : List Int := [1, 2, 3, 4, 5, 6, 7, 8, 9, 10, 12, 15, 20, 25, 30]

/-- One output row of `montar_curva_anbima_hoje`: columns `Data da curva`,
`Vértice (anos)`, `Juro Nominal (%)`, `Juro Real (%)`, `Breakeven (%)`. -/
structure OutRow where
  data_curva : Int
  vertice : Int
  nominal : Option PFloat
  real : Option PFloat
  breakeven : Option PFloat
deriving DecidableEq, Repr

/-- The breakeven computation shared by `montar_curva_anbima_hoje` and
`montar_curva_anbima_variacoes`:
`breakeven = None; if nominal is not None and real is not None: breakeven = nominal - real`.
Note a NaN float is `not None`, so NaN rates flow into the subtraction. -/
def breakeven_of (nominal real : Option PFloat) : Option PFloat :=
  match nominal, real with
  | some n, some r => some (PFloat.sub n r)
  | _, _ => none

/-- The loop body of `montar_curva_anbima_hoje` for one vertex `v` (years). -/
def linha_vertice (dmax : Int) (df_dia : List HRow) (v : Int) : OutRow :=
  let nominal := extrair_vertice_dia (df_dia.map fun r => ⟨r.prazo_du, r.taxa_pref⟩) v
  let real := extrair_vertice_dia (df_dia.map fun r => ⟨r.prazo_du, r.taxa_ipca⟩) v
  ⟨dmax, v, nominal, real, breakeven_of nominal real⟩

/-- A pandas DataFrame together with the fact of whether it carries the five
output columns: `pd.DataFrame()` (the empty-history early return) has NO
columns, while the populated result always has them.  Selecting the named
columns from the column-less frame raises `KeyError` — tracked by `hasCols`. -/
structure CurvaFrame where
  rows : List OutRow
  hasCols : Bool
deriving DecidableEq, Repr

/-- `montar_curva_anbima_hoje()` from `curvas_anbima.py`: load the history,
take the rows of the MAXIMUM `data_curva` present (no comparison with today's
calendar date appears in the source), and derive the 15 standard vertices. -/
def montar_curva_anbima_hoje (file : Option (List HRow)) : CurvaFrame :=
  let df_hist := carregar_historico_full file
  if df_hist.isEmpty then ⟨[], false⟩
  else
    match maxList (df_hist.map (·.data_curva)) with
    | none => ⟨[], false⟩
    | some dmax =>
      let df_dia := df_hist.filter (fun r => decide (r.data_curva = dmax))
      ⟨vertices_padrao.map (linha_vertice dmax df_dia), true⟩

/-! ## Calendar helpers

`montar_curva_anbima_variacoes` computes `date(hoje.year, 1, 1)` and
`hoje - timedelta(days=n)`.  Dates are integer day numbers (days since
1970-01-01, proleptic Gregorian); the civil conversions below embed Python's
`datetime.date` arithmetic. -/

/-- Day number of the civil date `(y, m, d)` (days since 1970-01-01). -/
def days_from_civil (y m d : Int) : Int :=
  let y2 := if m ≤ 2 then y - 1 else y
  let era := Int.fdiv y2 400
  let yoe := y2 - era * 400
  let doy := Int.fdiv (153 * (if 2 < m then m - 3 else m + 9) + 2) 5 + d - 1
  let doe := yoe * 365 + Int.fdiv yoe 4 - Int.fdiv yoe 100 + doy
  era * 146097 + doe - 719468

/-- The civil year of day number `z` (`hoje.year`). -/
def year_of (z : Int) : Int :=
  let z2 := z + 719468
  let era := Int.fdiv z2 146097
  let doe := z2 - era * 146097
  let yoe := Int.fdiv (doe - Int.fdiv doe 1460 + Int.fdiv doe 36524 - Int.fdiv doe 146096) 365
  let y := yoe + era * 400
  let doy := doe - (365 * yoe + Int.fdiv yoe 4 - Int.fdiv yoe 100)
  let mp := Int.fdiv (5 * doy + 2) 153
  let m := mp + (if mp < 10 then 3 else -9)
  if m ≤ 2 then y + 1 else y

/-- `date(hoje.year, 1, 1)` as a day number. -/
def jan1_of (z : Int) : Int := days_from_civil (year_of z) 1 1

example : year_of 0 = 1970 := by decide
example : jan1_of 0 = 0 := by decide
example : jan1_of 365 = 365 := by decide
example : jan1_of 364 = 0 := by decide

/-! ## Historical comparison (`montar_curva_anbima_variacoes`) -/

/-- One output row of `montar_curva_anbima_variacoes`: the horizon label
(`Data` column) and the three numeric columns. -/
structure VarRow where
  rotulo : String
  nominal : Option PFloat
  real : Option PFloat
  breakeven : Option PFloat
deriving DecidableEq, Repr

/-- The `datas_alvo` dictionary of `montar_curva_anbima_variacoes`. -/
def datas_alvo (hoje : Int) : List (String × Int) :=
  [("Hoje", hoje), ("D-1", hoje - 1), ("1 semana", hoje - 7), ("1 mês", hoje - 30),
   ("Ano", jan1_of hoje), ("12 meses", hoje - 365)]

/-- The loop body of `montar_curva_anbima_variacoes` for one labelled target
date: select the last `data_curva ≤` the target, or all-null when none. -/
def linha_variacao (df_hist : List HRow) (anos : Int) (p : String × Int) : VarRow :=
  let df_cand := df_hist.filter (fun r => decide (r.data_curva ≤ p.2))
  if df_cand.isEmpty then ⟨p.1, none, none, none⟩
  else
    match maxList (df_cand.map (·.data_curva)) with
    | none => ⟨p.1, none, none, none⟩
    | some dref =>
      let df_dia := df_cand.filter (fun r => decide (r.data_curva = dref))
      let nominal := extrair_vertice_dia (df_dia.map fun r => ⟨r.prazo_du, r.taxa_pref⟩) anos
      let real := extrair_vertice_dia (df_dia.map fun r => ⟨r.prazo_du, r.taxa_ipca⟩) anos
      ⟨p.1, nominal, real, breakeven_of nominal real⟩

/-- `montar_curva_anbima_variacoes(anos)` from `curvas_anbima.py`. -/
def montar_curva_anbima_variacoes (anos : Int) (file : Option (List HRow)) : List VarRow :=
  let df_hist := carregar_historico_full file
  if df_hist.isEmpty then []
  else
    match maxList (df_hist.map (·.data_curva)) with
    | none => []
    | some hoje => (datas_alvo hoje).map (linha_variacao df_hist anos)

/-! ## Spread classification and Treasury comparison
(`analise_tesouro_vs_curva.py`, `tesouro_direto.py`) -/

/-- `classificar_spread(spread_bps, limiar_bps)`; the Python default for
`limiar_bps` is `20.0` (callers use the default). -/
def classificar_spread (spread_bps : PFloat) (limiar_bps : ℚ) : String :=
  match spread_bps with
  | .nan => "Sem dado"
  | .val q =>
    if limiar_bps ≤ q then "Barato"
    else if q ≤ -limiar_bps then "Caro"
    else "No preço"

/-- `carregar_tesouro_bruto()` from `tesouro_direto.py`, as a function of the
local cache file and the outcome of the Tesouro Transparente download
(`Except.error` = the HTTP request raised / non-2xx status).  A missing or
empty (or unreadable) local file falls through to the download; the row type
is irrelevant to the control flow and left generic. -/
def carregar_tesouro_bruto {α : Type} (localFile : Option (List α))
    (download : Except String (List α)) : Except String (List α) :=
  match localFile with
  | some df => if !df.isEmpty then .ok df else download
  | none => download

/-- One row of the table produced by `carregar_tesouro_ultimo_dia` (latest-day
bond quotes): name, maturity, tenor in years, purchase rate.  The `data_base`
column is the shared quote date. -/
structure TesouroRow where
  data_base : Int
  nome_titulo : String
  data_vencimento : Int
  prazo_anos : PFloat
  taxa_compra : PFloat
deriving DecidableEq, Repr

/-- One output row of `comparar_tesouro_pre_vs_curva` (the
`data_base_tesouro` / `data_curva_anbima` constant display columns are
omitted from the model). -/
structure CmpRow where
  nome_titulo : String
  data_vencimento : Int
  prazo_anos : ℚ
  taxa_compra : PFloat
  taxa_pre_anbima : PFloat
  spread_bps : PFloat
  sinal : String
deriving DecidableEq, Repr

/-- Stable ascending sort by `prazo_anos` (`sort_values("prazo_anos")`; only
applied after NaN tenors were dropped). -/
def insertBond (b : TesouroRow) : List TesouroRow → List TesouroRow
  | [] => [b]
  | c :: cs =>
    if b.prazo_anos.getQ ≤ c.prazo_anos.getQ then b :: c :: cs else c :: insertBond b cs

def sortBonds : List TesouroRow → List TesouroRow
  | [] => []
  | b :: bs => insertBond b (sortBonds bs)

/-- `pd.merge_asof(..., direction="nearest")` right-hand lookup: the vertex
whose tenor is numerically closest to `x` (ties to the earlier/sorted-first
vertex; the callers' keys — integer-year vertices against fractional bond
tenors — make exact ties immaterial to the claims). -/
def nearest_vertex (vs : List (ℚ × PFloat)) (x : ℚ) : PFloat :=
  match vs with
  | [] => .nan
  | v :: rest => (rest.foldl (fun best w => if |w.1 - x| < |best.1 - x| then w else best) v).2

/-- `taxa_compra > 1` on a pandas float cell (NaN compares false). -/
def PFloat.gtQ (x : PFloat) (q : ℚ) : Bool :=
  match x with
  | .val a => decide (q < a)
  | .nan => false

/-- Lower-casing for `str.contains(..., case=False)`. -/
def lowerStr (s : String) : String := String.mk (s.data.map Char.toLower)

/-- Whether the first list is an initial segment of the second. -/
def comecaCom : List Char → List Char → Bool
  | [], _ => true
  | _ :: _, [] => false
  | a :: as, b :: bs => a == b && comecaCom as bs

/-- Substring occurrence test on character lists. -/
def contemSub (agulha : List Char) : List Char → Bool
  | [] => agulha.isEmpty
  | c :: rest => comecaCom agulha (c :: rest) || contemSub agulha rest

/-- `Series.str.contains(padrao, case=False, na=False)` on one cell. -/
def containsCI (padrao s : String) : Bool :=
  contemSub (lowerStr padrao).data (lowerStr s).data

example : containsCI "Prefixado" "Tesouro prefixado 2031" = true := by decide
example : containsCI "Prefixado" "Tesouro IPCA+ 2035" = false := by decide

/-- `spread_bps` descending order with NaN last (`sort_values(ascending=False)`,
`na_position="last"`): whether `x` must come strictly before `y`. -/
def precede_desc (x y : PFloat) : Bool :=
  match x, y with
  | .val a, .val b => decide (b < a)
  | .val _, .nan => true
  | .nan, _ => false

/-- Stable insertion for the descending sort by `spread_bps`. -/
def insertCmp (r : CmpRow) : List CmpRow → List CmpRow
  | [] => [r]
  | c :: cs =>
    if precede_desc c.spread_bps r.spread_bps then c :: insertCmp r cs else r :: c :: cs

def sortCmpDesc : List CmpRow → List CmpRow
  | [] => []
  | r :: rs => insertCmp r (sortCmpDesc rs)

/-- `comparar_tesouro_pre_vs_curva()` from `analise_tesouro_vs_curva.py`, as a
function of the loaded latest-day bond table (`carregar_tesouro_ultimo_dia`'s
result) and the curve-history file.

When the curve history is missing or empty, `montar_curva_anbima_hoje`
returns the column-less `pd.DataFrame()` and the projection
`curva[["Vértice (anos)", "Juro Nominal (%)"]]` raises `KeyError` — modelled
with `Except.error`.  Otherwise: drop bonds with NaN `taxa_compra` or NaN
`prazo_anos`, asof-match each bond to the nearest vertex, compute
`spread_bps = (taxa_compra - taxa_pre_anbima) * 100` and the signal, keep
`taxa_compra > 1` and names containing "Prefixado" (case-insensitive), and
sort by `spread_bps` descending.  (The reference-date extraction of lines
46–59 only fills the two constant display columns omitted here; it raises
nothing — `"data_curva" in curva.columns` is false even for the populated
frame, whose column is named `"Data da curva"`.) -/
def comparar_tesouro_pre_vs_curva (df_tesouro : List TesouroRow)
    (file : Option (List HRow)) : Except String (List CmpRow) :=
  let curva := montar_curva_anbima_hoje file
  if !curva.hasCols then .error "KeyError"
  else
    let df_pre_anbima := curva.rows.map (fun r => ((r.vertice : ℚ),
        match r.nominal with | some p => p | none => PFloat.nan))
    let df_tesouro_valid := df_tesouro.filter (fun b => !b.taxa_compra.isNan)
    let df_tesouro_valid2 := df_tesouro_valid.filter (fun b => !b.prazo_anos.isNan)
    let merged := (sortBonds df_tesouro_valid2).map (fun b =>
        (b, nearest_vertex df_pre_anbima b.prazo_anos.getQ))
    let com_spread := merged.map (fun p =>
        let spread_bps := (PFloat.sub p.1.taxa_compra p.2).mulQ 100
        ({ nome_titulo := p.1.nome_titulo, data_vencimento := p.1.data_vencimento,
           prazo_anos := p.1.prazo_anos.getQ, taxa_compra := p.1.taxa_compra,
           taxa_pre_anbima := p.2, spread_bps := spread_bps,
           sinal := classificar_spread spread_bps 20 } : CmpRow))
    let filtrado := com_spread.filter (fun r => r.taxa_compra.gtQ 1)
    let prefixados := filtrado.filter (fun r => containsCI "Prefixado" r.nome_titulo)
    .ok (sortCmpDesc prefixados)

/-! ## Infrastructure lemmas about the sorting helpers -/

theorem insertObs_perm (o : Obs) (l : List Obs) : List.Perm (insertObs o l) (o :: l) := by
  induction l with
  | nil => simp [insertObs]
  | cons p ps ih =>
    by_cases h : o.prazo_du ≤ p.prazo_du
    · simp [insertObs, h]
    · simp only [insertObs, if_neg h]
      exact (ih.cons p).trans (List.Perm.swap o p ps)

theorem sortObs_perm (l : List Obs) : List.Perm (sortObs l) l := by
  induction l with
  | nil => simp [sortObs]
  | cons o os ih => exact (insertObs_perm o (sortObs os)).trans (ih.cons o)

theorem mem_sortObs {o : Obs} {l : List Obs} : o ∈ sortObs l ↔ o ∈ l :=
  (sortObs_perm l).mem_iff

theorem insertObs_pairwise {o : Obs} {l : List Obs}
    (h : l.Pairwise (fun x y => x.prazo_du ≤ y.prazo_du)) :
    (insertObs o l).Pairwise (fun x y => x.prazo_du ≤ y.prazo_du) := by
  induction l with
  | nil => simp [insertObs]
  | cons p ps ih =>
    rcases List.pairwise_cons.mp h with ⟨hp, hps⟩
    by_cases hle : o.prazo_du ≤ p.prazo_du
    · simp only [insertObs, if_pos hle]
      refine List.pairwise_cons.mpr ⟨?_, h⟩
      intro x hx
      rcases List.mem_cons.mp hx with rfl | hx'
      · exact hle
      · exact le_trans hle (hp x hx')
    · simp only [insertObs, if_neg hle]
      refine List.pairwise_cons.mpr ⟨?_, ih hps⟩
      intro x hx
      rcases List.mem_cons.mp ((insertObs_perm o ps).mem_iff.mp hx) with rfl | hx'
      · exact le_of_lt (lt_of_not_le hle)
      · exact hp x hx'

theorem sortObs_pairwise (l : List Obs) :
    (sortObs l).Pairwise (fun x y => x.prazo_du ≤ y.prazo_du) := by
  induction l with
  | nil => simp [sortObs]
  | cons o os ih => exact insertObs_pairwise ih

theorem sortObs_pairwise_lt {l : List Obs} (h : (l.map (·.prazo_du)).Nodup) :
    (sortObs l).Pairwise (fun x y => x.prazo_du < y.prazo_du) := by
  have hperm : List.Perm ((sortObs l).map (·.prazo_du)) (l.map (·.prazo_du)) :=
    (sortObs_perm l).map _
  have hnd : ((sortObs l).map (·.prazo_du)).Nodup := hperm.nodup_iff.mpr h
  have hne : (sortObs l).Pairwise (fun x y => x.prazo_du ≠ y.prazo_du) :=
    List.pairwise_map.mp hnd
  exact ((sortObs_pairwise l).and hne).imp (fun hxy => lt_of_le_of_ne hxy.1 hxy.2)

theorem prazo_inj {df : List Obs} (hnd : (df.map (·.prazo_du)).Nodup) :
    ∀ a ∈ df, ∀ b ∈ df, a.prazo_du = b.prazo_du → a = b := by
  intro a ha b hb hab
  exact List.inj_on_of_nodup_map hnd ha hb hab

theorem find?_eq_some_of_unique {p : Obs → Bool} {l : List Obs} {a : Obs}
    (ha : a ∈ l) (hpa : p a = true) (huniq : ∀ x ∈ l, p x = true → x = a) :
    l.find? p = some a := by
  induction l with
  | nil => cases ha
  | cons b bs ih =>
    by_cases hpb : p b = true
    · have hba : b = a := huniq b (List.mem_cons_self b bs) hpb
      subst hba
      exact List.find?_cons_of_pos _ hpb
    · have hab : a ∈ bs := by
        rcases List.mem_cons.mp ha with rfl | hmem
        · exact absurd hpa hpb
        · exact hmem
      rw [List.find?_cons_of_neg _ (by simpa using hpb)]
      exact ih hab (fun x hx hpx => huniq x (List.mem_cons_of_mem _ hx) hpx)

theorem getLast?_eq_max {l : List Obs} {a : Obs}
    (hs : l.Pairwise (fun x y => x.prazo_du < y.prazo_du))
    (ha : a ∈ l) (hmax : ∀ x ∈ l, x.prazo_du ≤ a.prazo_du) : l.getLast? = some a := by
  induction l with
  | nil => cases ha
  | cons b bs ih =>
    cases bs with
    | nil =>
      rcases List.mem_cons.mp ha with rfl | hmem
      · rfl
      · cases hmem
    | cons c cs =>
      have hb_lt : ∀ x ∈ c :: cs, b.prazo_du < x.prazo_du := (List.pairwise_cons.mp hs).1
      have hbs : (c :: cs).Pairwise (fun x y => x.prazo_du < y.prazo_du) :=
        (List.pairwise_cons.mp hs).2
      have ha' : a ∈ c :: cs := by
        rcases List.mem_cons.mp ha with rfl | hmem
        · exfalso
          have h1 := hb_lt c (List.mem_cons_self c cs)
          have h2 := hmax c (List.mem_cons_of_mem _ (List.mem_cons_self c cs))
          omega
        · exact hmem
      rw [List.getLast?_cons_cons]
      exact ih hbs ha' (fun x hx => hmax x (List.mem_cons_of_mem _ hx))

theorem head?_eq_min {l : List Obs} {a : Obs}
    (hs : l.Pairwise (fun x y => x.prazo_du < y.prazo_du))
    (ha : a ∈ l) (hmin : ∀ x ∈ l, a.prazo_du ≤ x.prazo_du) : l.head? = some a := by
  cases l with
  | nil => cases ha
  | cons b bs =>
    rcases List.mem_cons.mp ha with rfl | hmem
    · rfl
    · exfalso
      have h1 := (List.pairwise_cons.mp hs).1 a hmem
      have h2 := hmin b (List.mem_cons_self b bs)
      omega

theorem argminDiff_eq_none {alvo : Int} {l : List Obs} :
    argminDiff alvo l = none ↔ l = [] := by
  cases l with
  | nil => simp [argminDiff]
  | cons o os =>
    simp only [argminDiff]
    cases h : argminDiff alvo os with
    | none => simp
    | some m =>
      by_cases hle : (o.prazo_du - alvo).natAbs ≤ (m.prazo_du - alvo).natAbs <;>
        simp [hle]

theorem argminDiff_mem {alvo : Int} {l : List Obs} {m : Obs}
    (h : argminDiff alvo l = some m) : m ∈ l := by
  induction l generalizing m with
  | nil => simp [argminDiff] at h
  | cons o os ih =>
    simp only [argminDiff] at h
    split at h
    · cases h
      exact List.mem_cons_self _ _
    · rename_i m' hr
      split at h
      · cases h
        exact List.mem_cons_self _ _
      · cases h
        exact List.mem_cons_of_mem _ (ih hr)

theorem argminDiff_min {alvo : Int} {l : List Obs} {m : Obs}
    (h : argminDiff alvo l = some m) :
    ∀ x ∈ l, (m.prazo_du - alvo).natAbs ≤ (x.prazo_du - alvo).natAbs := by
  induction l generalizing m with
  | nil => simp [argminDiff] at h
  | cons o os ih =>
    simp only [argminDiff] at h
    split at h
    · rename_i hr
      cases h
      intro x hx
      rcases List.mem_cons.mp hx with rfl | hmem
      · exact le_refl _
      · rw [argminDiff_eq_none.mp hr] at hmem
        cases hmem
    · rename_i m' hr
      split at h
      · rename_i hle
        cases h
        intro x hx
        rcases List.mem_cons.mp hx with rfl | hmem
        · exact le_refl _
        · exact le_trans hle (ih hr x hmem)
      · rename_i hle
        cases h
        intro x hx
        rcases List.mem_cons.mp hx with rfl | hmem
        · exact le_of_lt (lt_of_not_le hle)
        · exact ih hr x hmem

/-! ## General behaviour of `extrair_vertice_dia` on deduplicated snapshots -/

theorem extrair_nonempty_isEmpty {df : List Obs} {o : Obs} (ho : o ∈ df) :
    df.isEmpty = false := by
  cases df
  · cases ho
  · rfl

theorem extrair_filter_len_ne {df : List Obs}
    (hv : ∃ x ∈ df, x.taxa.isNan = false) :
    (df.filter (fun x => !x.taxa.isNan)).length ≠ 0 := by
  rcases hv with ⟨x, hx, hxn⟩
  have hmem : x ∈ df.filter (fun x => !x.taxa.isNan) :=
    List.mem_filter.mpr ⟨hx, by simp [hxn]⟩
  intro hlen
  rw [List.length_eq_zero] at hlen
  rw [hlen] at hmem
  cases hmem

/-- Exact-tenor branch: when the snapshot has pairwise distinct tenors, some
non-missing rate, and an observation `o` sits exactly at the target tenor,
the interpolator returns `o`'s rate cell as is. -/
theorem extrair_exact {df : List Obs} {anos : Int} {o : Obs}
    (hnd : (df.map (·.prazo_du)).Nodup)
    (ho : o ∈ df) (hp : o.prazo_du = anos * 252)
    (hv : ∃ x ∈ df, x.taxa.isNan = false) :
    extrair_vertice_dia df anos = some o.taxa := by
  have hni : df.isEmpty = false := extrair_nonempty_isEmpty ho
  have hflt := extrair_filter_len_ne hv
  have hfind : (sortObs df).find? (fun x => decide (x.prazo_du = anos * 252)) = some o := by
    apply find?_eq_some_of_unique (mem_sortObs.mpr ho) (by simp [hp])
    intro x hx hpx
    have hx' : x ∈ df := mem_sortObs.mp hx
    have hxeq : x.prazo_du = anos * 252 := of_decide_eq_true hpx
    exact prazo_inj hnd x hx' o ho (by rw [hxeq, hp])
  unfold extrair_vertice_dia
  rw [hni]
  simp only [Bool.false_eq_true, if_false, if_neg hflt, hfind]

/-- Interpolation branch: with distinct tenors, a non-missing rate somewhere,
no exact match, and `a`/`d` the closest observations strictly below/above the
target, the interpolator returns the linear interpolation of their rate
cells. -/
theorem extrair_interp {df : List Obs} {anos : Int} {a d : Obs}
    (hnd : (df.map (·.prazo_du)).Nodup)
    (ha : a ∈ df) (hd : d ∈ df)
    (halo : a.prazo_du < anos * 252) (hdhi : anos * 252 < d.prazo_du)
    (hamax : ∀ x ∈ df, x.prazo_du < anos * 252 → x.prazo_du ≤ a.prazo_du)
    (hdmin : ∀ x ∈ df, anos * 252 < x.prazo_du → d.prazo_du ≤ x.prazo_du)
    (hnex : ∀ x ∈ df, x.prazo_du ≠ anos * 252)
    (hv : ∃ x ∈ df, x.taxa.isNan = false) :
    extrair_vertice_dia df anos =
      some (PFloat.interp a.taxa d.taxa
        (((anos * 252 - a.prazo_du : Int) : ℚ) / ((d.prazo_du - a.prazo_du : Int) : ℚ))) := by
  have hni : df.isEmpty = false := extrair_nonempty_isEmpty ha
  have hflt := extrair_filter_len_ne hv
  have hsp := sortObs_pairwise_lt hnd
  have hfind : (sortObs df).find? (fun x => decide (x.prazo_du = anos * 252)) = none := by
    rw [List.find?_eq_none]
    intro x hx
    simp only [decide_eq_true_eq]
    exact hnex x (mem_sortObs.mp hx)
  have hA : ((sortObs df).filter (fun o => decide (o.prazo_du < anos * 252))).getLast?
      = some a := by
    apply getLast?_eq_max
    · exact hsp.sublist (List.filter_sublist _)
    · exact List.mem_filter.mpr ⟨mem_sortObs.mpr ha, by simp [halo]⟩
    · intro x hx
      rcases List.mem_filter.mp hx with ⟨hx1, hx2⟩
      exact hamax x (mem_sortObs.mp hx1) (of_decide_eq_true hx2)
  have hD : ((sortObs df).filter (fun o => decide (anos * 252 < o.prazo_du))).head?
      = some d := by
    apply head?_eq_min
    · exact hsp.sublist (List.filter_sublist _)
    · exact List.mem_filter.mpr ⟨mem_sortObs.mpr hd, by simp [hdhi]⟩
    · intro x hx
      rcases List.mem_filter.mp hx with ⟨hx1, hx2⟩
      exact hdmin x (mem_sortObs.mp hx1) (of_decide_eq_true hx2)
  unfold extrair_vertice_dia
  rw [hni]
  simp only [Bool.false_eq_true, if_false, if_neg hflt, hfind, hA, hD]

/-- Nearest-neighbour fallback: with distinct tenors and a target strictly
outside the observed range, the interpolator returns the rate of the minimiser
of `|PRAZO_DU - alvo_du|` — converted to `None` when that rate is NaN (the
all-NaN early return also lands on `none` in that case). -/
theorem extrair_fallback {df : List Obs} {anos : Int} {m : Obs}
    (hnd : (df.map (·.prazo_du)).Nodup)
    (hm : m ∈ df)
    (hout : (∀ x ∈ df, anos * 252 < x.prazo_du) ∨ (∀ x ∈ df, x.prazo_du < anos * 252))
    (hmin : ∀ x ∈ df, (m.prazo_du - anos * 252).natAbs ≤ (x.prazo_du - anos * 252).natAbs) :
    extrair_vertice_dia df anos = if m.taxa.isNan then none else some m.taxa := by
  have hni : df.isEmpty = false := extrair_nonempty_isEmpty hm
  by_cases hv : ∀ x ∈ df, x.taxa.isNan = true
  · have hmn : m.taxa.isNan = true := hv m hm
    have hflt : (df.filter (fun x => !x.taxa.isNan)).length = 0 := by
      rw [List.length_eq_zero, List.filter_eq_nil_iff]
      intro x hx
      simp [hv x hx]
    unfold extrair_vertice_dia
    rw [hni]
    simp [hflt, hmn]
  · push_neg at hv
    rcases hv with ⟨x, hx, hxn⟩
    have hxn' : x.taxa.isNan = false := by simpa using hxn
    have hflt := extrair_filter_len_ne ⟨x, hx, hxn'⟩
    have hfind : (sortObs df).find? (fun y => decide (y.prazo_du = anos * 252)) = none := by
      rw [List.find?_eq_none]
      intro y hy
      simp only [decide_eq_true_eq]
      rcases hout with hgt | hlt
      · have := hgt y (mem_sortObs.mp hy)
        omega
      · have := hlt y (mem_sortObs.mp hy)
        omega
    have hsne : sortObs df ≠ [] := by
      intro hnil
      have hmem : m ∈ sortObs df := mem_sortObs.mpr hm
      rw [hnil] at hmem
      cases hmem
    have hargmin : argminDiff (anos * 252) (sortObs df) = some m := by
      cases harg : argminDiff (anos * 252) (sortObs df) with
      | none => exact absurd (argminDiff_eq_none.mp harg) hsne
      | some m2 =>
        have hm2 : m2 ∈ df := mem_sortObs.mp (argminDiff_mem harg)
        have hm2min := argminDiff_min harg m (mem_sortObs.mpr hm)
        have hmmin := hmin m2 hm2
        have heq : m2.prazo_du = m.prazo_du := by
          rcases hout with hgt | hlt
          · have h1 := hgt m hm
            have h2 := hgt m2 hm2
            omega
          · have h1 := hlt m hm
            have h2 := hlt m2 hm2
            omega
        rw [prazo_inj hnd m2 hm2 m hm heq]
    rcases hout with hgt | hlt
    · -- target strictly below every tenor
      have hA : ((sortObs df).filter (fun o => decide (o.prazo_du < anos * 252))) = [] := by
        rw [List.filter_eq_nil_iff]
        intro y hy
        have := hgt y (mem_sortObs.mp hy)
        simp only [decide_eq_true_eq]
        omega
      have hDfull : ((sortObs df).filter (fun o => decide (anos * 252 < o.prazo_du)))
          = sortObs df := by
        rw [List.filter_eq_self]
        intro y hy
        have := hgt y (mem_sortObs.mp hy)
        simp [this]
      rcases List.exists_cons_of_ne_nil hsne with ⟨h0, t0, hst⟩
      have hD2 : ((sortObs df).filter (fun o => decide (anos * 252 < o.prazo_du))).head?
          = some h0 := by
        rw [hDfull, hst]
        rfl
      unfold extrair_vertice_dia
      rw [hni]
      simp only [Bool.false_eq_true, if_false, if_neg hflt, hfind, hA, List.getLast?_nil,
        hD2, hargmin]
    · -- target strictly above every tenor
      have hAfull : ((sortObs df).filter (fun o => decide (o.prazo_du < anos * 252)))
          = sortObs df := by
        rw [List.filter_eq_self]
        intro y hy
        have := hlt y (mem_sortObs.mp hy)
        simp [this]
      have hgl : ∃ y, (sortObs df).getLast? = some y := by
        cases hgl2 : (sortObs df).getLast? with
        | none =>
          exfalso
          exact hsne (List.getLast?_eq_none_iff.mp hgl2)
        | some y => exact ⟨y, rfl⟩
      rcases hgl with ⟨y, hy⟩
      have hA2 : ((sortObs df).filter (fun o => decide (o.prazo_du < anos * 252))).getLast?
          = some y := by
        rw [hAfull, hy]
      have hD : ((sortObs df).filter (fun o => decide (anos * 252 < o.prazo_du))) = [] := by
        rw [List.filter_eq_nil_iff]
        intro z hz
        have := hlt z (mem_sortObs.mp hz)
        simp only [decide_eq_true_eq]
        omega
      unfold extrair_vertice_dia
      rw [hni]
      simp only [Bool.false_eq_true, if_false, if_neg hflt, hfind, hA2, hD, List.head?_nil,
        hargmin]

/-! ## Claim theorems -/

def c1_hist : List HRow := [⟨100, 252, .val 10, .val 5, 100⟩]

/-- C1, counterexample (today = day 50): the history holds a single curve
dated day 100, strictly after today, yet `montar_curva_anbima_hoje` selects
exactly that future-dated snapshot — there is no clamping to "≤ today" in the
source (line 352 takes the plain maximum of `data_curva`), contradicting the
claim that the future-dated snapshot is never the one selected. -/
theorem montar_hoje_selects_future_date :
    (montar_curva_anbima_hoje (some c1_hist)).rows ≠ [] ∧
    ((montar_curva_anbima_hoje (some c1_hist)).rows.all
      (fun r => decide (r.data_curva = 100))) = true ∧
    ¬ ((100 : Int) ≤ 50) := by
  have hrows : (montar_curva_anbima_hoje (some c1_hist)).rows
      = vertices_padrao.map (linha_vertice 100 c1_hist) := rfl
  refine ⟨?_, ?_, by decide⟩
  · rw [hrows]
    simp [vertices_padrao]
  · rw [hrows]
    rw [List.all_eq_true]
    intro r hr
    rcases List.mem_map.mp hr with ⟨v, hv, rfl⟩
    exact decide_eq_true rfl

/-- C1, amended: the snapshot selected by `montar_curva_anbima_hoje` consists
of the rows whose `data_curva` is the maximum curve date present in the
history, with no comparison against today's calendar date: a future-dated
maximum is selected just the same. -/
theorem montar_hoje_snapshot_max_date (h : List HRow) (hne : h ≠ []) :
    ∃ dmax, maxList (h.map (·.data_curva)) = some dmax ∧
      (montar_curva_anbima_hoje (some h)).rows ≠ [] ∧
      ∀ r ∈ (montar_curva_anbima_hoje (some h)).rows, r.data_curva = dmax := by
  cases h with
  | nil => exact absurd rfl hne
  | cons r0 rs =>
    refine ⟨(rs.map (fun r : HRow => r.data_curva)).foldl max r0.data_curva, rfl, ?_, ?_⟩
    · have hrows : (montar_curva_anbima_hoje (some (r0 :: rs))).rows
          = vertices_padrao.map
              (linha_vertice ((rs.map (fun r : HRow => r.data_curva)).foldl max r0.data_curva)
                ((r0 :: rs).filter
                  (fun r => decide (r.data_curva
                    = (rs.map (fun r : HRow => r.data_curva)).foldl max r0.data_curva)))) := rfl
      rw [hrows]
      simp [vertices_padrao]
    · intro r hr
      have hrows : (montar_curva_anbima_hoje (some (r0 :: rs))).rows
          = vertices_padrao.map
              (linha_vertice ((rs.map (fun r : HRow => r.data_curva)).foldl max r0.data_curva)
                ((r0 :: rs).filter
                  (fun r => decide (r.data_curva
                    = (rs.map (fun r : HRow => r.data_curva)).foldl max r0.data_curva)))) := rfl
      rw [hrows] at hr
      rcases List.mem_map.mp hr with ⟨v, hv, rfl⟩
      rfl

theorem montar_hoje_snapshot_max_date_witness :
    c1_hist ≠ [] ∧
    ∃ dmax, maxList (c1_hist.map (·.data_curva)) = some dmax ∧
      (montar_curva_anbima_hoje (some c1_hist)).rows ≠ [] ∧
      ∀ r ∈ (montar_curva_anbima_hoje (some c1_hist)).rows, r.data_curva = dmax :=
  ⟨by decide, montar_hoje_snapshot_max_date c1_hist (by decide)⟩

def c2_bond : TesouroRow := ⟨100, "Tesouro Prefixado 2031", 2000, .val 5, .val 12⟩

/-- C2, counterexample: with a bond table present but no curve-history file,
`comparar_tesouro_pre_vs_curva` raises `KeyError` (projecting the named
columns out of the column-less empty frame returned by
`montar_curva_anbima_hoje`) instead of returning an empty result set. -/
theorem comparador_missing_curve_raises :
    comparar_tesouro_pre_vs_curva [c2_bond] none = .error "KeyError" := rfl

/-- C2, amended: with the curve-history file missing (or empty), the curve
builders `montar_curva_anbima_hoje` and `montar_curva_anbima_variacoes`
return empty result sets without raising, but the spread comparator raises a
`KeyError` in that same state; and with the bond file missing,
`carregar_tesouro_bruto` performs the network download and propagates its
outcome (data, or the raised HTTP error) rather than returning an empty
result. -/
theorem missing_file_semantics :
    ((montar_curva_anbima_hoje none).rows = [] ∧
      (montar_curva_anbima_hoje (some [])).rows = []) ∧
    (∀ anos : Int, montar_curva_anbima_variacoes anos none = []) ∧
    (∀ df_tesouro : List TesouroRow,
      comparar_tesouro_pre_vs_curva df_tesouro none = .error "KeyError") ∧
    (∀ df_tesouro : List TesouroRow,
      comparar_tesouro_pre_vs_curva df_tesouro (some []) = .error "KeyError") ∧
    (∀ download : Except String (List TesouroRow),
      carregar_tesouro_bruto none download = download) :=
  ⟨⟨rfl, rfl⟩, fun _ => rfl, fun _ => rfl, fun _ => rfl, fun _ => rfl⟩

theorem PFloat.interp_nan_left (y : PFloat) (t : ℚ) : PFloat.interp .nan y t = .nan := rfl

theorem PFloat.interp_nan_right (y : PFloat) (t : ℚ) : PFloat.interp y .nan t = .nan := by
  cases y <;> rfl

/-- Linear interpolation with a coefficient in `[0, 1]` stays inside the
closed interval spanned by its endpoints. -/
theorem interp_between {qa qd t : ℚ} (ht0 : 0 ≤ t) (ht1 : t ≤ 1) :
    min qa qd ≤ qa + (qd - qa) * t ∧ qa + (qd - qa) * t ≤ max qa qd := by
  rcases le_total qa qd with h | h
  · rw [min_eq_left h, max_eq_right h]
    constructor
    · nlinarith [mul_nonneg (sub_nonneg.2 h) ht0]
    · nlinarith [mul_nonneg (sub_nonneg.2 h) (sub_nonneg.2 ht1)]
  · rw [min_eq_right h, max_eq_left h]
    constructor
    · nlinarith [mul_nonneg (sub_nonneg.2 h) (sub_nonneg.2 ht1)]
    · nlinarith [mul_nonneg (sub_nonneg.2 h) ht0]

/-- C3, counterexample: in a snapshot whose only observation sits exactly at
the target tenor but carries a missing (NaN) rate, `_extrair_vertice_dia`
returns `None` (the zero-valid-rates early return fires first), not that
observation's NaN rate — so the exact-match branch does not return the
observation's rate "unchanged" for every snapshot. -/
theorem exact_match_all_nan_counterexample :
    (⟨252, PFloat.nan⟩ : Obs).prazo_du = 1 * 252 ∧
    extrair_vertice_dia [⟨252, PFloat.nan⟩] 1 = none ∧
    some (⟨252, PFloat.nan⟩ : Obs).taxa ≠ (none : Option PFloat) := by
  refine ⟨by decide, by decide, by decide⟩

/-- C3, amended: provided the snapshot has pairwise distinct tenors and at
least one non-missing rate in the queried series, an observation sitting
exactly at the target tenor (`PRAZO_DU = anos * 252`) has its rate cell
returned as is — no averaging or interpolation — even when that cell is
itself NaN. -/
theorem exact_match_returns_rate (df : List Obs) (anos : Int) (o : Obs)
    (hnd : (df.map (·.prazo_du)).Nodup)
    (ho : o ∈ df) (hp : o.prazo_du = anos * 252)
    (hv : ∃ x ∈ df, x.taxa.isNan = false) :
    extrair_vertice_dia df anos = some o.taxa :=
  extrair_exact hnd ho hp hv

theorem exact_match_returns_rate_witness :
    extrair_vertice_dia [⟨252, .val 10⟩, ⟨504, .val 12⟩] 1 = some (PFloat.val 10) :=
  exact_match_returns_rate [⟨252, .val 10⟩, ⟨504, .val 12⟩] 1 ⟨252, .val 10⟩
    (by decide) (by decide) (by decide) ⟨⟨252, .val 10⟩, by decide, rfl⟩

/-- C4, confirmed: when the target tenor falls strictly between the two
bracketing observations `a` (closest below) and `d` (closest above), with no
exact match and both bracketing rates present, the interpolated rate lies in
`[min qa qd, max qa qd]`. -/
theorem interp_betweenness (df : List Obs) (anos : Int) (a d : Obs) (qa qd : ℚ)
    (hnd : (df.map (·.prazo_du)).Nodup)
    (ha : a ∈ df) (hd : d ∈ df)
    (halo : a.prazo_du < anos * 252) (hdhi : anos * 252 < d.prazo_du)
    (hamax : ∀ x ∈ df, x.prazo_du < anos * 252 → x.prazo_du ≤ a.prazo_du)
    (hdmin : ∀ x ∈ df, anos * 252 < x.prazo_du → d.prazo_du ≤ x.prazo_du)
    (hnex : ∀ x ∈ df, x.prazo_du ≠ anos * 252)
    (hqa : a.taxa = PFloat.val qa) (hqd : d.taxa = PFloat.val qd) :
    ∃ q : ℚ, extrair_vertice_dia df anos = some (PFloat.val q) ∧
      min qa qd ≤ q ∧ q ≤ max qa qd := by
  have hv : ∃ x ∈ df, x.taxa.isNan = false := ⟨a, ha, by rw [hqa]; rfl⟩
  have h := extrair_interp hnd ha hd halo hdhi hamax hdmin hnex hv
  rw [hqa, hqd] at h
  have hx0 : (0 : ℚ) < ((anos * 252 - a.prazo_du : Int) : ℚ) := by
    exact_mod_cast (by omega : (0 : Int) < anos * 252 - a.prazo_du)
  have hx1 : (0 : ℚ) < ((d.prazo_du - a.prazo_du : Int) : ℚ) := by
    exact_mod_cast (by omega : (0 : Int) < d.prazo_du - a.prazo_du)
  have hle : ((anos * 252 - a.prazo_du : Int) : ℚ) ≤ ((d.prazo_du - a.prazo_du : Int) : ℚ) := by
    exact_mod_cast (by omega : (anos * 252 - a.prazo_du : Int) ≤ d.prazo_du - a.prazo_du)
  have ht0 : 0 ≤ ((anos * 252 - a.prazo_du : Int) : ℚ) / ((d.prazo_du - a.prazo_du : Int) : ℚ) :=
    le_of_lt (div_pos hx0 hx1)
  have ht1 : ((anos * 252 - a.prazo_du : Int) : ℚ) / ((d.prazo_du - a.prazo_du : Int) : ℚ) ≤ 1 :=
    (div_le_one hx1).mpr hle
  exact ⟨_, h, (interp_between ht0 ht1).1, (interp_between ht0 ht1).2⟩

theorem interp_betweenness_witness :
    ∃ q : ℚ, extrair_vertice_dia [⟨200, .val 10⟩, ⟨300, .val 12⟩] 1 = some (PFloat.val q) ∧
      min 10 12 ≤ q ∧ q ≤ max 10 12 :=
  interp_betweenness [⟨200, .val 10⟩, ⟨300, .val 12⟩] 1 ⟨200, .val 10⟩ ⟨300, .val 12⟩ 10 12
    (by decide) (by decide) (by decide) (by decide) (by decide) (by decide) (by decide)
    (by decide) rfl rfl

/-- C5, confirmed: when the target tenor is strictly below every observed
tenor or strictly above every observed tenor (no bracketing interval), the
interpolator returns the rate of the single observation minimising
`|PRAZO_DU - alvo_du|` — the nearest endpoint — and never an extrapolated
value; here stated for a present (non-NaN) nearest rate, the missing-rate
case being the object of the nan-leak claim. -/
theorem extrapolation_nearest (df : List Obs) (anos : Int) (m : Obs) (q : ℚ)
    (hnd : (df.map (·.prazo_du)).Nodup)
    (hm : m ∈ df)
    (hout : (∀ x ∈ df, anos * 252 < x.prazo_du) ∨ (∀ x ∈ df, x.prazo_du < anos * 252))
    (hmin : ∀ x ∈ df, (m.prazo_du - anos * 252).natAbs ≤ (x.prazo_du - anos * 252).natAbs)
    (hval : m.taxa = PFloat.val q) :
    extrair_vertice_dia df anos = some (PFloat.val q) := by
  have h := extrair_fallback hnd hm hout hmin
  rw [hval] at h
  simpa [PFloat.isNan] using h

theorem extrapolation_nearest_witness :
    extrair_vertice_dia [⟨300, .val 10⟩, ⟨400, .val 12⟩] 1 = some (PFloat.val 10) :=
  extrapolation_nearest [⟨300, .val 10⟩, ⟨400, .val 12⟩] 1 ⟨300, .val 10⟩ 10
    (by decide) (by decide) (Or.inl (by decide)) (by decide) rfl

/-- C9, confirmed (implicit claim): with at least one valid rate in the
snapshot, a missing (NaN) rate at the exact target tenor — or at a bracketing
observation used for interpolation — leaks out of `_extrair_vertice_dia` as a
NaN float (`some PFloat.nan`), not as `None`; only the nearest-neighbour
fallback branch converts a missing rate to `None`. -/
theorem missing_rate_leak :
    (∀ (df : List Obs) (anos : Int) (o : Obs),
        (df.map (·.prazo_du)).Nodup → o ∈ df → o.prazo_du = anos * 252 →
        o.taxa = PFloat.nan → (∃ x ∈ df, x.taxa.isNan = false) →
        extrair_vertice_dia df anos = some PFloat.nan) ∧
    (∀ (df : List Obs) (anos : Int) (a d : Obs),
        (df.map (·.prazo_du)).Nodup → a ∈ df → d ∈ df →
        a.prazo_du < anos * 252 → anos * 252 < d.prazo_du →
        (∀ x ∈ df, x.prazo_du < anos * 252 → x.prazo_du ≤ a.prazo_du) →
        (∀ x ∈ df, anos * 252 < x.prazo_du → d.prazo_du ≤ x.prazo_du) →
        (∀ x ∈ df, x.prazo_du ≠ anos * 252) →
        (a.taxa = PFloat.nan ∨ d.taxa = PFloat.nan) →
        (∃ x ∈ df, x.taxa.isNan = false) →
        extrair_vertice_dia df anos = some PFloat.nan) ∧
    (∀ (df : List Obs) (anos : Int) (m : Obs),
        (df.map (·.prazo_du)).Nodup → m ∈ df →
        ((∀ x ∈ df, anos * 252 < x.prazo_du) ∨ (∀ x ∈ df, x.prazo_du < anos * 252)) →
        (∀ x ∈ df, (m.prazo_du - anos * 252).natAbs ≤ (x.prazo_du - anos * 252).natAbs) →
        m.taxa = PFloat.nan →
        extrair_vertice_dia df anos = none) := by
  refine ⟨?_, ?_, ?_⟩
  · intro df anos o hnd ho hp hnan hv
    have h := extrair_exact hnd ho hp hv
    rw [hnan] at h
    exact h
  · intro df anos a d hnd ha hd halo hdhi hamax hdmin hnex hnan hv
    have h := extrair_interp hnd ha hd halo hdhi hamax hdmin hnex hv
    rcases hnan with hn | hn
    · rw [hn, PFloat.interp_nan_left] at h
      exact h
    · rw [hn, PFloat.interp_nan_right] at h
      exact h
  · intro df anos m hnd hm hout hmin hnan
    have h := extrair_fallback hnd hm hout hmin
    rw [hnan] at h
    simpa [PFloat.isNan] using h

theorem missing_rate_leak_witness :
    extrair_vertice_dia [⟨252, PFloat.nan⟩, ⟨300, .val 7⟩] 1 = some PFloat.nan ∧
    extrair_vertice_dia [⟨200, PFloat.nan⟩, ⟨300, .val 7⟩] 1 = some PFloat.nan ∧
    extrair_vertice_dia [⟨300, PFloat.nan⟩, ⟨400, .val 7⟩] 1 = none :=
  ⟨missing_rate_leak.1 [⟨252, PFloat.nan⟩, ⟨300, .val 7⟩] 1 ⟨252, PFloat.nan⟩
      (by decide) (by decide) (by decide) rfl ⟨⟨300, .val 7⟩, by decide, rfl⟩,
   missing_rate_leak.2.1 [⟨200, PFloat.nan⟩, ⟨300, .val 7⟩] 1 ⟨200, PFloat.nan⟩ ⟨300, .val 7⟩
      (by decide) (by decide) (by decide) (by decide) (by decide) (by decide) (by decide)
      (by decide) (Or.inl rfl) ⟨⟨300, .val 7⟩, by decide, rfl⟩,
   missing_rate_leak.2.2 [⟨300, PFloat.nan⟩, ⟨400, .val 7⟩] 1 ⟨300, PFloat.nan⟩
      (by decide) (by decide) (Or.inl (by decide)) (by decide) rfl⟩

theorem breakeven_of_none_left (r : Option PFloat) : breakeven_of none r = none := rfl

theorem breakeven_of_none_right (n : Option PFloat) : breakeven_of n none = none := by
  cases n <;> rfl

theorem montar_hoje_rows_breakeven (file : Option (List HRow)) :
    ∀ row ∈ (montar_curva_anbima_hoje file).rows,
      row.breakeven = breakeven_of row.nominal row.real := by
  intro row hrow
  simp only [montar_curva_anbima_hoje] at hrow
  split at hrow
  · simp at hrow
  · split at hrow
    · simp at hrow
    · rcases List.mem_map.mp hrow with ⟨v, hv, rfl⟩
      rfl

theorem linha_variacao_breakeven (df_hist : List HRow) (anos : Int) (p : String × Int) :
    (linha_variacao df_hist anos p).breakeven =
      breakeven_of (linha_variacao df_hist anos p).nominal
        (linha_variacao df_hist anos p).real := by
  simp only [linha_variacao]
  split
  · rfl
  · split
    · rfl
    · rfl

theorem montar_variacoes_rows_breakeven (anos : Int) (file : Option (List HRow)) :
    ∀ row ∈ montar_curva_anbima_variacoes anos file,
      row.breakeven = breakeven_of row.nominal row.real := by
  intro row hrow
  simp only [montar_curva_anbima_variacoes] at hrow
  split at hrow
  · simp at hrow
  · split at hrow
    · simp at hrow
    · rcases List.mem_map.mp hrow with ⟨pq, hpq, rfl⟩
      exact linha_variacao_breakeven _ _ _

/-- C6, confirmed: in every row produced by `montar_curva_anbima_hoje` and by
`montar_curva_anbima_variacoes`, the breakeven field is null whenever the
nominal or the real rate is null, and otherwise equals exactly
`nominal - real` (as a pandas float, NaN included). -/
theorem breakeven_contract (file : Option (List HRow)) (anos : Int) :
    (∀ row ∈ (montar_curva_anbima_hoje file).rows,
        ((row.nominal = none ∨ row.real = none) → row.breakeven = none) ∧
        (∀ n r, row.nominal = some n → row.real = some r →
          row.breakeven = some (PFloat.sub n r))) ∧
    (∀ row ∈ montar_curva_anbima_variacoes anos file,
        ((row.nominal = none ∨ row.real = none) → row.breakeven = none) ∧
        (∀ n r, row.nominal = some n → row.real = some r →
          row.breakeven = some (PFloat.sub n r))) := by
  constructor
  · intro row hrow
    have hb := montar_hoje_rows_breakeven file row hrow
    constructor
    · rintro (hn | hn) <;> rw [hb, hn]
      · exact breakeven_of_none_left _
      · exact breakeven_of_none_right _
    · intro n r hn hr
      rw [hb, hn, hr]
      rfl
  · intro row hrow
    have hb := montar_variacoes_rows_breakeven anos file row hrow
    constructor
    · rintro (hn | hn) <;> rw [hb, hn]
      · exact breakeven_of_none_left _
      · exact breakeven_of_none_right _
    · intro n r hn hr
      rw [hb, hn, hr]
      rfl

theorem breakeven_contract_witness :
    ∃ row ∈ (montar_curva_anbima_hoje (some [⟨100, 252, .val 10, .val 5, 100⟩])).rows,
      row.nominal = some (PFloat.val 10) ∧ row.real = some (PFloat.val 5) ∧
      row.breakeven = some (PFloat.sub (PFloat.val 10) (PFloat.val 5)) := by
  have hrows : (montar_curva_anbima_hoje (some [⟨100, 252, .val 10, .val 5, 100⟩])).rows
      = vertices_padrao.map (linha_vertice 100
          ([(⟨100, 252, .val 10, .val 5, 100⟩ : HRow)].filter
            (fun r => decide (r.data_curva = 100)))) := rfl
  have hmem : linha_vertice 100
      ([(⟨100, 252, .val 10, .val 5, 100⟩ : HRow)].filter
        (fun r => decide (r.data_curva = 100))) 1
      ∈ (montar_curva_anbima_hoje (some [⟨100, 252, .val 10, .val 5, 100⟩])).rows := by
    rw [hrows]
    exact List.mem_map.mpr ⟨1, by decide, rfl⟩
  have hnom : (linha_vertice 100
      ([(⟨100, 252, .val 10, .val 5, 100⟩ : HRow)].filter
        (fun r => decide (r.data_curva = 100))) 1).nominal = some (PFloat.val 10) := by decide
  have hreal : (linha_vertice 100
      ([(⟨100, 252, .val 10, .val 5, 100⟩ : HRow)].filter
        (fun r => decide (r.data_curva = 100))) 1).real = some (PFloat.val 5) := by decide
  exact ⟨_, hmem, hnom, hreal,
    ((breakeven_contract (some [⟨100, 252, .val 10, .val 5, 100⟩]) 1).1 _ hmem).2 _ _ hnom hreal⟩

theorem classificar_val_eq (q limiar : ℚ) :
    classificar_spread (.val q) limiar =
      if limiar ≤ q then "Barato" else if q ≤ -limiar then "Caro" else "No preço" := rfl

/-- C7, confirmed: with the default 20 bps threshold, every finite spread is
classified into exactly one of Barato / No preço / Caro, with closed
boundaries (`+20 → Barato`, `-20 → Caro`), and a NaN spread is classified as
Sem dado. -/
theorem classificar_spread_partition :
    (∀ q : ℚ, classificar_spread (.val q) 20 = "Barato" ∨
        classificar_spread (.val q) 20 = "No preço" ∨
        classificar_spread (.val q) 20 = "Caro") ∧
    (∀ q : ℚ, classificar_spread (.val q) 20 = "Barato" ↔ 20 ≤ q) ∧
    (∀ q : ℚ, classificar_spread (.val q) 20 = "Caro" ↔ q ≤ -20) ∧
    (∀ q : ℚ, classificar_spread (.val q) 20 = "No preço" ↔ (-20 < q ∧ q < 20)) ∧
    classificar_spread (.val 20) 20 = "Barato" ∧
    classificar_spread (.val (-20)) 20 = "Caro" ∧
    classificar_spread .nan 20 = "Sem dado" := by
  have hiff1 : ∀ q : ℚ, classificar_spread (.val q) 20 = "Barato" ↔ 20 ≤ q := by
    intro q
    rw [classificar_val_eq]
    split_ifs with h1 h2
    · exact iff_of_true rfl h1
    · exact iff_of_false (by decide) h1
    · exact iff_of_false (by decide) h1
  have hiff2 : ∀ q : ℚ, classificar_spread (.val q) 20 = "Caro" ↔ q ≤ -20 := by
    intro q
    rw [classificar_val_eq]
    split_ifs with h1 h2
    · exact iff_of_false (by decide) (by intro h; linarith)
    · exact iff_of_true rfl h2
    · exact iff_of_false (by decide) h2
  have hiff3 : ∀ q : ℚ, classificar_spread (.val q) 20 = "No preço" ↔ (-20 < q ∧ q < 20) := by
    intro q
    rw [classificar_val_eq]
    split_ifs with h1 h2
    · exact iff_of_false (by decide) (fun h => absurd h.2 (by linarith))
    · exact iff_of_false (by decide) (fun h => absurd h.1 (by linarith))
    · exact iff_of_true rfl ⟨by linarith, by linarith⟩
  refine ⟨?_, hiff1, hiff2, hiff3, ?_, ?_, rfl⟩
  · intro q
    by_cases h1 : (20 : ℚ) ≤ q
    · exact Or.inl ((hiff1 q).mpr h1)
    · by_cases h2 : q ≤ -20
      · exact Or.inr (Or.inr ((hiff2 q).mpr h2))
      · exact Or.inr (Or.inl ((hiff3 q).mpr ⟨by linarith, by linarith⟩))
  · exact (hiff1 20).mpr (by norm_num)
  · exact (hiff2 (-20)).mpr (by norm_num)

theorem classificar_spread_partition_witness :
    classificar_spread (.val 25) 20 = "Barato" ∧
    classificar_spread (.val 0) 20 = "No preço" ∧
    classificar_spread (.val (-30)) 20 = "Caro" :=
  ⟨(classificar_spread_partition.2.1 25).mpr (by norm_num),
   (classificar_spread_partition.2.2.2.1 0).mpr (by norm_num),
   (classificar_spread_partition.2.2.1 (-30)).mpr (by norm_num)⟩

theorem getLast?_cons_ne_nil {α : Type} (a : α) {xs : List α} (h : xs ≠ []) :
    (a :: xs).getLast? = xs.getLast? := by
  cases xs with
  | nil => exact absurd rfl h
  | cons b bs => exact List.getLast?_cons_cons

theorem getLast?_append_right {α : Type} {ys : List α} (xs : List α) (h : ys ≠ []) :
    (xs ++ ys).getLast? = ys.getLast? := by
  induction xs with
  | nil => rfl
  | cons a as ih =>
    have hne : as ++ ys ≠ [] := fun hnil => h (List.append_eq_nil.mp hnil).2
    rw [List.cons_append, getLast?_cons_ne_nil a hne, ih]

/-- The rows of a given key surviving `drop_duplicates(keep="last")` are
exactly the last such row of the input, in place. -/
theorem dropDup_filter (l : List HRow) (k : Int × Int) :
    (dropDupKeepLast l).filter (fun r => decide (chave r = k)) =
      ((l.filter (fun r => decide (chave r = k))).getLast?).toList := by
  induction l with
  | nil => rfl
  | cons r rs ih =>
    by_cases hdup : rs.any (fun s => decide (chave s = chave r)) = true
    · simp only [dropDupKeepLast, hdup, if_true]
      rw [ih]
      by_cases hk : chave r = k
      · have hexists : rs.filter (fun x => decide (chave x = k)) ≠ [] := by
          rcases List.any_eq_true.mp hdup with ⟨s, hs, hs2⟩
          have hsk : chave s = k := by rw [of_decide_eq_true hs2, hk]
          intro hnil
          have hmem : s ∈ rs.filter (fun x => decide (chave x = k)) :=
            List.mem_filter.mpr ⟨hs, by simp [hsk]⟩
          rw [hnil] at hmem
          cases hmem
        rw [List.filter_cons_of_pos (by simp [hk]), getLast?_cons_ne_nil r hexists]
      · rw [List.filter_cons_of_neg (by simp [hk])]
    · simp only [dropDupKeepLast]
      rw [if_neg hdup]
      by_cases hk : chave r = k
      · have hnone : rs.filter (fun x => decide (chave x = k)) = [] := by
          rw [List.filter_eq_nil_iff]
          intro s hs
          intro hsk
          apply hdup
          rw [List.any_eq_true]
          refine ⟨s, hs, ?_⟩
          rw [of_decide_eq_true hsk, ← hk]
          simp
        rw [List.filter_cons_of_pos (by simp [hk]), List.filter_cons_of_pos (by simp [hk]),
          ih, hnone]
        rfl
      · rw [List.filter_cons_of_neg (by simp [hk]), List.filter_cons_of_neg (by simp [hk]),
          ih]

/-- C8, confirmed: appending two batches carrying the same
`(data_curva, PRAZO_DU)` key and then reloading the history yields exactly one
row for that key — the last row of the second (last-written) batch with that
key, rates included — never two rows. -/
theorem append_twice_last_wins (file : Option (List HRow)) (b1 b2 : List HRow)
    (k : Int × Int) (r1 r2 : HRow)
    (hr1 : r1 ∈ b1) (hk1 : chave r1 = k)
    (hr2 : (b2.filter (fun r => decide (chave r = k))).getLast? = some r2) :
    ∃ rows, file_after_append (file_after_append file (some b1)) (some b2) = some rows ∧
      rows.filter (fun r => decide (chave r = k)) = [r2] := by
  have hb1 : b1.isEmpty = false := by
    cases b1 with
    | nil => cases hr1
    | cons x xs => rfl
  have hfilne : b2.filter (fun r => decide (chave r = k)) ≠ [] := by
    intro hnil
    rw [hnil] at hr2
    cases hr2
  have hb2 : b2.isEmpty = false := by
    cases b2 with
    | nil => exact absurd (by rfl) hfilne
    | cons x xs => rfl
  have hstep1 : file_after_append file (some b1) =
      some (dropDupKeepLast (file.getD [] ++ b1)) := by
    simp [file_after_append, append_historico_full, hb1]
  have hstep2 : file_after_append (some (dropDupKeepLast (file.getD [] ++ b1))) (some b2) =
      some (dropDupKeepLast (dropDupKeepLast (file.getD [] ++ b1) ++ b2)) := by
    simp [file_after_append, append_historico_full, hb2]
  refine ⟨dropDupKeepLast (dropDupKeepLast (file.getD [] ++ b1) ++ b2), ?_, ?_⟩
  · rw [hstep1, hstep2]
  · rw [dropDup_filter, List.filter_append, getLast?_append_right _ hfilne, hr2]
    rfl

theorem append_twice_last_wins_witness :
    ∃ rows,
      file_after_append
        (file_after_append none (some [⟨10, 252, .val 11, .val 6, 10⟩]))
        (some [⟨10, 252, .val 12, .val 7, 11⟩]) = some rows ∧
      rows.filter (fun r => decide (chave r = (10, 252)))
        = [⟨10, 252, .val 12, .val 7, 11⟩] :=
  append_twice_last_wins none [⟨10, 252, .val 11, .val 6, 10⟩]
    [⟨10, 252, .val 12, .val 7, 11⟩] (10, 252)
    ⟨10, 252, .val 11, .val 6, 10⟩ ⟨10, 252, .val 12, .val 7, 11⟩
    (by decide) (by decide) (by decide)

/-- C10, confirmed (implicit claim): calling `_append_historico_full` with a
`None` or empty batch performs no write at all — the on-disk history file is
left exactly as it was, whether it existed or not (not created, not
truncated, not rewritten). -/
theorem append_empty_is_noop (file : Option (List HRow)) :
    file_after_append file none = file ∧
    file_after_append file (some []) = file ∧
    append_historico_full file none = none ∧
    append_historico_full file (some []) = none :=
  ⟨rfl, rfl, rfl, rfl⟩

theorem missing_file_semantics_witness :
    comparar_tesouro_pre_vs_curva [] none = .error "KeyError" ∧
    carregar_tesouro_bruto none (.ok ([] : List TesouroRow)) = .ok [] :=
  ⟨missing_file_semantics.2.2.1 [], missing_file_semantics.2.2.2.2 (.ok [])⟩

theorem append_empty_is_noop_witness :
    file_after_append (some [⟨10, 252, PFloat.val 11, PFloat.val 6, 10⟩]) none
      = some [⟨10, 252, PFloat.val 11, PFloat.val 6, 10⟩] ∧
    file_after_append (none : Option (List HRow)) (some []) = none :=
  ⟨(append_empty_is_noop (some [⟨10, 252, PFloat.val 11, PFloat.val 6, 10⟩])).1,
   (append_empty_is_noop none).2.1⟩
